import Mathlib

/-!
Shallow embedding of the auction bot in `src/main.py`.

The program keeps, per channel, one `AuctionState` (class `AuctionState`,
lines 33-104): mutable fields `highest_bid`, `highest_bidder`, the fixed
`ends_at` deadline, plus an `asyncio` lock и countdown task.  A process-wide
dict `auctions` maps `channel.id` to the live state.  Bids arrive through
`BidModal.on_submit`, close-out through `end_auction`, and the button handler
`on_interaction` dispatches bid-modal opening and force-close.

Python `int` is embedded as `Int`; timestamps (`discord.utils.utcnow()
.timestamp()`, `ends_at`) are embedded as `Nat` instants, which preserves the
only operations the code performs on them (comparison and addition of a
duration).  Discord identities (users, channels) are embedded as `Nat` ids.
Best-effort I/O calls (`message.edit`, `channel.send`) are embedded as
entries appended to effect logs in a system state `Sys`, with explicit
failure flags standing for the exceptions the code catches.
-/

/-- Identity of a Discord user (`discord.Member`); only its id is relevant. -/
abbrev UserId := Nat

/-- Identity of a Discord channel; only `channel.id` is relevant. -/
abbrev ChannelId := Nat

/-- Embedding of class `AuctionState.__init__` (main.py lines 33-52).
`taskCancelled` records whether `state.task.cancel()` has been called on the
countdown task; the other fields are the Python attributes.  The code has no
`phase` attribute: the only lifecycle traces are registry membership and the
cancelled task. -/
structure AuctionState where
  channelId : ChannelId
  item : String
  start_price : Int
  highest_bid : Int
  highest_bidder : Option UserId
  ends_at : Nat
  owner : UserId
  taskCancelled : Bool
deriving DecidableEq, Repr

/-- `AuctionState.__init__`: `highest_bid = start_price`, no bidder yet,
`ends_at = now + duration_sec`, countdown task freshly started. -/
def mkAuctionState (channelId : ChannelId) (item : String) (start_price : Int)
    (duration_sec : Nat) (now : Nat) (owner : UserId) : AuctionState :=
  { channelId := channelId
    item := item
    start_price := start_price
    highest_bid := start_price
    highest_bidder := none
    ends_at := now + duration_sec
    owner := owner
    taskCancelled := false }

/-- The outcome a bid submission reports back to the bidder
(the ephemeral `interaction.response.send_message` texts of
`BidModal.on_submit`, lines 118-157). -/
inductive BidOutcome where
  | Accepted (newHighest : Int)
  | BidTooLow (currentHighest : Int)
  | NotAnInteger
  | AlreadyClosed
deriving DecidableEq, Repr

/-- Line 133: `digits = re.sub(r"\D", "", raw)` — keep only the decimal
digit characters of the raw text, in order. -/
def stripNonDigits (raw : String) : List Char :=
  raw.data.filter Char.isDigit

/-- Line 138: `int(digits)` on a string of decimal digits: the base-10 value
of the digit characters read left to right.  The result is an `Int` because
Python `int` values are signed, though this fold can only produce
non-negative values (proved below). -/
def digitsToInt (ds : List Char) : Int :=
  ds.foldl (fun acc c => 10 * acc + ((c.toNat : Int) - 48)) 0

/-- Lines 132-138 of `BidModal.on_submit`: strip every non-digit character
from the raw text; if no digit remains the bid is rejected (`none`, the
"정수를 입력해주세요" branch), otherwise the remaining digits are read as a
base-10 integer.  The preceding `.strip()` on line 132 removes only
whitespace, which the `\D` substitution removes anyway, so it is absorbed
into the filter. -/
def parseBid (raw : String) : Option Int :=
  let ds := stripNonDigits raw
  if ds.isEmpty then none else some (digitsToInt ds)

/-- Embedding of `BidModal.on_submit` (main.py lines 118-157), the pure part
executed under `state.lock`: returns the reported outcome, the auction state
after the call, and whether the call triggered the close-out
(`end_auction`).  Branches, in source order:
* line 126: if `now >= ends_at`, cancel the countdown task, trigger
  `end_auction`, and answer "이미 시간이 종료되었습니다" (AlreadyClosed);
* lines 132-136: parse; no digits answers NotAnInteger;
* line 139: `bid <= highest_bid or bid < start_price` answers BidTooLow
  with the current `highest_bid`, leaving the state untouched;
* lines 147-157: otherwise set `highest_bid = bid`,
  `highest_bidder = interaction.user`, and answer Accepted with the new bid.
The `if not state:` guard on line 120 is omitted: `self.state` is assigned a
non-None `AuctionState` in `BidModal.__init__` and never reassigned, so that
branch is unreachable. -/
def on_submit (s : AuctionState) (now : Nat) (user : UserId) (raw : String) :
    BidOutcome × AuctionState × Bool :=
  if s.ends_at ≤ now then
    (BidOutcome.AlreadyClosed, { s with taskCancelled := true }, true)
  else
    match parseBid raw with
    | none => (BidOutcome.NotAnInteger, s, false)
    | some bid =>
      if bid ≤ s.highest_bid ∨ bid < s.start_price then
        (BidOutcome.BidTooLow s.highest_bid, s, false)
      else
        (BidOutcome.Accepted bid,
         { s with highest_bid := bid, highest_bidder := some user }, false)

/-- The structure of the `winner_text` the close-out publishes
(main.py lines 239-242): a win announcement naming the highest bidder and
the final highest bid, or the no-winner text "입찰자가 없어 낙찰 실패". -/
inductive OutcomeText where
  | winner (bidder : UserId) (amount : Int)
  | noWinner
deriving DecidableEq, Repr

/-- Lines 239-242: the outcome text computed from the auction state. -/
def winnerText (s : AuctionState) : OutcomeText :=
  match s.highest_bidder with
  | some u => OutcomeText.winner u s.highest_bid
  | none => OutcomeText.noWinner

/-- The process-wide observable state around one channel's auction:
* `registry` embeds the dict `auctions` (line 104) as an association list
  keyed by `channel.id`;
* `announcements` logs every outcome text delivered by
  `state.channel.send(winner_text)` (line 251);
* `finalEdits` logs every final display update delivered by
  `state.message.edit(...)` in `end_auction` (line 250), with its reason;
* `tasksStarted` counts the countdown tasks spawned by
  `asyncio.create_task(self._run_countdown())` (line 52). -/
structure Sys where
  registry : List (ChannelId × AuctionState)
  announcements : List OutcomeText
  finalEdits : List (OutcomeText × String)
  tasksStarted : Nat
deriving DecidableEq, Repr

/-- Embedding of `end_auction` (main.py lines 238-255).  The code computes
`winner_text`, then runs one `try` block holding BOTH the final
`state.message.edit` and the `state.channel.send(winner_text)` — so an
exception in the edit skips the send — with
`auctions.pop(state.channel.id, None)` in the `finally` clause, executed
unconditionally.  `editFails` / `sendFails` stand for those two calls
raising; the caught exception is only printed.  There is no phase flag and
no check of one: every invocation recomputes and re-delivers its effects. -/
def end_auction (sys : Sys) (s : AuctionState) (reason : String)
    (editFails sendFails : Bool) : Sys :=
  let w := winnerText s
  { registry := sys.registry.filter (fun p => p.1 ≠ s.channelId)
    finalEdits :=
      if editFails then sys.finalEdits else sys.finalEdits ++ [(w, reason)]
    announcements :=
      if editFails || sendFails then sys.announcements
      else sys.announcements ++ [w]
    tasksStarted := sys.tasksStarted }

/-- Result of the slash command `/경매` (function `auction`,
main.py lines 179-203). -/
inductive OpenResult where
  | alreadyRunning
  | opened (state : AuctionState)
deriving DecidableEq, Repr

/-- Embedding of the `/경매` command (main.py lines 179-203): if
`channel.id in auctions` it answers "이미 경매가 진행 중입니다"
(AlreadyRunning) and returns before touching anything; otherwise it builds
an `AuctionState` — whose constructor starts the countdown task — and
stores it under `channel.id`. -/
def auction_cmd (sys : Sys) (channelId : ChannelId) (item : String)
    (start_price : Int) (duration_sec : Nat) (now : Nat) (owner : UserId) :
    OpenResult × Sys :=
  if (sys.registry.lookup channelId).isSome then
    (OpenResult.alreadyRunning, sys)
  else
    let s := mkAuctionState channelId item start_price duration_sec now owner
    (OpenResult.opened s,
     { sys with
        registry := (channelId, s) :: sys.registry
        tasksStarted := sys.tasksStarted + 1 })

/-- What the `auction_end` button branch of `on_interaction`
(main.py lines 221-235) reports. -/
inductive ForceCloseResult where
  | alreadyEnded
  | unauthorized
  | closed
deriving DecidableEq, Repr

/-- Embedding of the force-close branch of `on_interaction`
(main.py lines 221-235): look the channel up in `auctions`; with no entry
answer "이미 종료된 경매입니다"; then require
`interaction.user.id == state.owner.id` or the `manage_messages`
permission, else answer the Unauthorized text and change nothing; when
authorized, cancel the countdown task and run `end_auction(state, "조기
종료")`.  The third component is the auction object after the call (the
same object stale modals still reference), `none` when no auction was
registered for the channel. -/
def on_interaction_end (sys : Sys) (channelId : ChannelId) (user : UserId)
    (isMod : Bool) (editFails sendFails : Bool) :
    ForceCloseResult × Sys × Option AuctionState :=
  match sys.registry.lookup channelId with
  | none => (ForceCloseResult.alreadyEnded, sys, none)
  | some s =>
    if user = s.owner ∨ isMod = true then
      let s1 := { s with taskCancelled := true }
      (ForceCloseResult.closed, end_auction sys s1 "조기 종료" editFails sendFails,
       some s1)
    else
      (ForceCloseResult.unauthorized, sys, some s)

/-- A bid submission together with the close-out it may trigger: runs
`on_submit` under the auction's lock and, in the expired branch, the
`end_auction(state, "시간 종료")` call of line 128.  Returns the reported
outcome, the auction object after the call, and the new system state. -/
def handle_bid (sys : Sys) (s : AuctionState) (now : Nat) (user : UserId)
    (raw : String) (editFails sendFails : Bool) :
    BidOutcome × AuctionState × Sys :=
  let r := on_submit s now user raw
  (r.1, r.2.1,
   if r.2.2 then end_auction sys r.2.1 "시간 종료" editFails sendFails else sys)

/-- One bid request: the clock value when the lock is acquired, the bidder,
and the raw modal text. -/
structure BidReq where
  now : Nat
  user : UserId
  raw : String
deriving DecidableEq, Repr

/-- Run a sequence of bid submissions on one auction, in lock-acquisition
order, collecting the amounts of the accepted bids. -/
def runBidsAcc (s : AuctionState) (acc : List Int) :
    List BidReq → AuctionState × List Int
  | [] => (s, acc)
  | r :: rs =>
    let res := on_submit s r.now r.user r.raw
    match res.1 with
    | BidOutcome.Accepted b => runBidsAcc res.2.1 (acc ++ [b]) rs
    | _ => runBidsAcc res.2.1 acc rs

/-- The events of one `BidModal.on_submit` call, in program order, for
reasoning about what happens inside the lock scope. -/
inductive Ev where
  | acquire
  | expiryCheck
  | parseStep
  | validate
  | mutate
  | refresh
  | respond
  | closeOut
  | release
deriving DecidableEq, Repr, BEq

/-- The event trace of `BidModal.on_submit` (main.py lines 118-157), read
off the source: the whole body is the `async with state.lock:` block
entered on line 124 and left — releasing the lock — only when the handler
returns, so every branch ends with the release.  In the accepting branch
the display refresh `state.message.edit(...)` on line 150 runs after the
mutation of lines 147-148 but still inside the `async with` block. -/
def on_submit_trace (s : AuctionState) (now : Nat) (raw : String) :
    List Ev :=
  Ev.acquire ::
  (if s.ends_at ≤ now then
    [Ev.expiryCheck, Ev.closeOut, Ev.respond]
   else
    Ev.expiryCheck ::
    match parseBid raw with
    | none => [Ev.parseStep, Ev.respond]
    | some bid =>
      if bid ≤ s.highest_bid ∨ bid < s.start_price then
        [Ev.parseStep, Ev.validate, Ev.respond]
      else
        [Ev.parseStep, Ev.validate, Ev.mutate, Ev.refresh, Ev.respond])
  ++ [Ev.release]

/-- The relation between an auction's initial state `s0`, its current state
`st`, and the list `acc` of bid amounts accepted so far, maintained by every
`on_submit` call: the immutable `start_price` is untouched, `highest_bid`
never drops below the start price, it is the start price while nothing was
accepted and the maximum accepted amount afterwards, every accepted amount
strictly exceeded the start price, and `highest_bidder` is set exactly when
some bid has been accepted. -/
def BidInv (s0 st : AuctionState) (acc : List Int) : Prop :=
  st.start_price = s0.start_price
  ∧ s0.start_price ≤ st.highest_bid
  ∧ (st.highest_bidder.isSome ↔ acc ≠ [])
  ∧ (∀ a ∈ acc, a ≤ st.highest_bid ∧ s0.start_price < a)
  ∧ (acc = [] → st.highest_bid = s0.start_price)
  ∧ (acc ≠ [] → st.highest_bid ∈ acc)

section ParseLemmas

/-- A digit character's code point is at least 48 (the code of `0`). -/
theorem le_toNat_of_isDigit {c : Char} (h : c.isDigit = true) :
    48 ≤ c.toNat := by
  simp [Char.isDigit] at h
  exact h.1

/-- Folding the base-10 accumulator over digit characters never leaves the
non-negative integers. -/
theorem digitsToInt_fold_nonneg (ds : List Char)
    (hds : ∀ c ∈ ds, c.isDigit = true) :
    ∀ acc : Int, 0 ≤ acc →
      0 ≤ ds.foldl (fun acc c => 10 * acc + ((c.toNat : Int) - 48)) acc := by
  induction ds with
  | nil => intro acc hacc; simpa using hacc
  | cons c cs ih =>
    intro acc hacc
    have hc : 48 ≤ c.toNat := le_toNat_of_isDigit (hds c (by simp))
    have hc' : (48 : Int) ≤ (c.toNat : Int) := by exact_mod_cast hc
    have : 0 ≤ 10 * acc + ((c.toNat : Int) - 48) := by linarith
    simpa using ih (fun c hm => hds c (by simp [hm])) _ this

/-- `digitsToInt` of a list of digit characters is non-negative. -/
theorem digitsToInt_nonneg (ds : List Char)
    (hds : ∀ c ∈ ds, c.isDigit = true) : 0 ≤ digitsToInt ds :=
  digitsToInt_fold_nonneg ds hds 0 le_rfl

/-- The parse fails exactly on texts that contain no digit character. -/
theorem parseBid_eq_none_iff (raw : String) :
    parseBid raw = none ↔ ∀ c ∈ raw.data, c.isDigit = false := by
  unfold parseBid stripNonDigits
  constructor
  · intro h c hc
    by_cases hd : (raw.data.filter Char.isDigit).isEmpty = true
    · have := List.isEmpty_iff.mp hd
      have := List.filter_eq_nil_iff.mp this c hc
      simpa using this
    · simp [hd] at h
  · intro h
    have : raw.data.filter Char.isDigit = [] :=
      List.filter_eq_nil_iff.mpr (fun c hc => by simp [h c hc])
    simp [this]

/-- When the parse succeeds it returns exactly the base-10 value of the
text's digit characters, taken in their original order. -/
theorem parseBid_eq_some (raw : String) (b : Int)
    (h : parseBid raw = some b) :
    b = digitsToInt (raw.data.filter Char.isDigit) := by
  unfold parseBid stripNonDigits at h
  by_cases hd : (raw.data.filter Char.isDigit).isEmpty = true
  · simp [hd] at h
  · simp [hd] at h
    exact h.symm

/-- Every parsed bid amount is non-negative. -/
theorem parseBid_nonneg (raw : String) (b : Int)
    (h : parseBid raw = some b) : 0 ≤ b := by
  rw [parseBid_eq_some raw b h]
  exact digitsToInt_nonneg _ (fun c hc => (List.mem_filter.mp hc).2)

end ParseLemmas

/-- C5: `submitBid` parses `rawAmountText` by discarding every non-digit
character and reading the remaining digits as a non-negative integer; it
fails with NotAnInteger exactly when no digit remains after stripping; the
text "1,000" parses to the integer 1000 and the text "abc" fails. -/
theorem C5_permissive_parse :
    (∀ raw : String, parseBid raw = none ↔ ∀ c ∈ raw.data, c.isDigit = false)
    ∧ parseBid "1,000" = some 1000
    ∧ parseBid "abc" = none := by
  refine ⟨parseBid_eq_none_iff, by decide, by decide⟩

/-- Witness for C5 at the concrete text "abc". -/
theorem C5_permissive_parse_witness : parseBid "abc" = none :=
  (C5_permissive_parse.1 "abc").mpr (by decide)

/-- C10: whenever the raw text contains at least one digit character the
parse succeeds and yields the base-10 integer formed by the text's digit
characters in their original order, every other character deleted; every
parsed amount is non-negative — so a negative amount can never be submitted
and "-500" is read as the bid 500 — and the parse fails only on texts with
no digit at all. -/
theorem C10_digits_only_parse :
    (∀ raw : String, raw.data.any Char.isDigit = true →
        parseBid raw = some (digitsToInt (raw.data.filter Char.isDigit)))
    ∧ (∀ (raw : String) (b : Int), parseBid raw = some b → 0 ≤ b)
    ∧ parseBid "-500" = some 500
    ∧ (∀ raw : String, parseBid raw = none → ∀ c ∈ raw.data, c.isDigit = false) := by
  refine ⟨?_, parseBid_nonneg, by decide, fun raw h => (parseBid_eq_none_iff raw).mp h⟩
  intro raw h
  rcases List.any_eq_true.mp h with ⟨c, hc, hd⟩
  have hne : raw.data.filter Char.isDigit ≠ [] := by
    intro hnil
    have := List.filter_eq_nil_iff.mp hnil c hc
    simp [hd] at this
  unfold parseBid stripNonDigits
  rw [if_neg (by simpa [List.isEmpty_iff] using hne)]

/-- Witness for C10 at the concrete text "-500". -/
theorem C10_digits_only_parse_witness :
    parseBid "-500" = some (digitsToInt ("-500".data.filter Char.isDigit)) :=
  C10_digits_only_parse.1 "-500" (by decide)

/-- C1: for a bid on an auction whose deadline has not passed, with a raw
text parsing to `bid`, the bid is accepted exactly when `bid` strictly
exceeds the current `highest_bid` and is at least `start_price`: on
acceptance `highest_bid` becomes `bid`, `highest_bidder` becomes the
bidder, and success is reported with the new highest bid; otherwise the
submission fails with BidTooLow carrying the current `highest_bid` and the
state is unchanged.  In particular a bid exactly equal to `highest_bid` is
rejected. -/
theorem C1_bid_acceptance_protocol (s : AuctionState) (now : Nat)
    (user : UserId) (raw : String) (bid : Int)
    (hopen : now < s.ends_at) (hparse : parseBid raw = some bid) :
    (s.highest_bid < bid ∧ s.start_price ≤ bid →
        on_submit s now user raw =
          (BidOutcome.Accepted bid,
           { s with highest_bid := bid, highest_bidder := some user }, false))
    ∧ (¬(s.highest_bid < bid ∧ s.start_price ≤ bid) →
        on_submit s now user raw =
          (BidOutcome.BidTooLow s.highest_bid, s, false))
    ∧ (bid = s.highest_bid →
        on_submit s now user raw =
          (BidOutcome.BidTooLow s.highest_bid, s, false)) := by
  have hno : ¬ s.ends_at ≤ now := by omega
  refine ⟨?_, ?_, ?_⟩
  · intro h
    simp only [on_submit, hparse]
    rw [if_neg hno, if_neg (by omega)]
  · intro h
    simp only [on_submit, hparse]
    rw [if_neg hno, if_pos (by omega)]
  · intro h
    simp only [on_submit, hparse]
    rw [if_neg hno, if_pos (by omega)]

/-- Witness for C1: the first bid "1,500" on a fresh auction with start
price 1000 is accepted at 1500. -/
theorem C1_bid_acceptance_protocol_witness :
    on_submit (mkAuctionState 1 "아이템" 1000 10 0 3) 0 7 "1,500" =
      (BidOutcome.Accepted 1500,
       { mkAuctionState 1 "아이템" 1000 10 0 3 with
          highest_bid := 1500, highest_bidder := some 7 }, false) :=
  (C1_bid_acceptance_protocol (mkAuctionState 1 "아이템" 1000 10 0 3) 0 7
    "1,500" 1500 (by decide) (by decide)).1 (by decide)

/-- Case analysis on `on_submit`: every call either accepts a parsed bid
that beats the current highest bid and meets the start price, or leaves
`highest_bid` and `highest_bidder` untouched. -/
theorem on_submit_cases (s : AuctionState) (now : Nat) (u : UserId)
    (raw : String) :
    (∃ b, on_submit s now u raw =
        (BidOutcome.Accepted b,
         { s with highest_bid := b, highest_bidder := some u }, false)
        ∧ s.highest_bid < b ∧ s.start_price ≤ b ∧ parseBid raw = some b
        ∧ now < s.ends_at)
    ∨ on_submit s now u raw =
        (BidOutcome.AlreadyClosed, { s with taskCancelled := true }, true)
    ∨ on_submit s now u raw = (BidOutcome.NotAnInteger, s, false)
    ∨ on_submit s now u raw = (BidOutcome.BidTooLow s.highest_bid, s, false) := by
  by_cases hend : s.ends_at ≤ now
  · right; left
    unfold on_submit
    rw [if_pos hend]
  · rcases hp : parseBid raw with _ | bid
    · right; right; left
      unfold on_submit
      rw [if_neg hend, hp]
    · by_cases hlow : bid ≤ s.highest_bid ∨ bid < s.start_price
      · right; right; right
        unfold on_submit
        rw [if_neg hend, hp]
        exact if_pos hlow
      · left
        refine ⟨bid, ?_, by omega, by omega, rfl, by omega⟩
        unfold on_submit
        rw [if_neg hend, hp]
        exact if_neg hlow

/-- Running any sequence of bid submissions preserves the bid invariant. -/
theorem BidInv_run (s0 : AuctionState) :
    ∀ (rs : List BidReq) (st : AuctionState) (acc : List Int),
      BidInv s0 st acc →
      BidInv s0 (runBidsAcc st acc rs).1 (runBidsAcc st acc rs).2 := by
  intro rs
  induction rs with
  | nil => intro st acc h; simpa [runBidsAcc] using h
  | cons r rs ih =>
    intro st acc h
    obtain ⟨h1, h2, h3, h4, h5, h6⟩ := h
    rcases on_submit_cases st r.now r.user r.raw with
      ⟨b, hsub, hgt, hge, hp, hopen⟩ | hsub | hsub | hsub
    · simp only [runBidsAcc, hsub]
      apply ih
      refine ⟨h1, show s0.start_price ≤ b by omega, by simp, ?_, by simp,
        by simp⟩
      intro a ha
      rcases List.mem_append.mp ha with ha | ha
      · obtain ⟨hle, hlt⟩ := h4 a ha
        exact ⟨show a ≤ b by omega, hlt⟩
      · simp at ha
        exact ⟨show a ≤ b by omega, show s0.start_price < a by omega⟩
    · simp only [runBidsAcc, hsub]
      exact ih _ _ ⟨h1, h2, h3, h4, h5, h6⟩
    · simp only [runBidsAcc, hsub]
      exact ih _ _ ⟨h1, h2, h3, h4, h5, h6⟩
    · simp only [runBidsAcc, hsub]
      exact ih _ _ ⟨h1, h2, h3, h4, h5, h6⟩

/-- A single bid submission never decreases `highest_bid`. -/
theorem on_submit_highest_mono (s : AuctionState) (now : Nat) (u : UserId)
    (raw : String) :
    s.highest_bid ≤ ((on_submit s now u raw).2.1).highest_bid := by
  rcases on_submit_cases s now u raw with
    ⟨b, hsub, hgt, _, _, _⟩ | hsub | hsub | hsub
  · rw [hsub]
    simpa using le_of_lt hgt
  · rw [hsub]
  · rw [hsub]
  · rw [hsub]

/-- Running bids over an appended list splits into two runs. -/
theorem runBidsAcc_append :
    ∀ (l1 l2 : List BidReq) (st : AuctionState) (acc : List Int),
      runBidsAcc st acc (l1 ++ l2) =
        runBidsAcc (runBidsAcc st acc l1).1 (runBidsAcc st acc l1).2 l2 := by
  intro l1
  induction l1 with
  | nil => intro l2 st acc; simp [runBidsAcc]
  | cons r l1 ih =>
    intro l2 st acc
    rcases on_submit_cases st r.now r.user r.raw with
      ⟨b, hsub, _, _, _, _⟩ | hsub | hsub | hsub <;>
      simp only [List.cons_append, runBidsAcc, hsub] <;> apply ih

/-- Over any run of bid submissions `highest_bid` never decreases. -/
theorem runBidsAcc_highest_mono :
    ∀ (rs : List BidReq) (st : AuctionState) (acc : List Int),
      st.highest_bid ≤ (runBidsAcc st acc rs).1.highest_bid := by
  intro rs
  induction rs with
  | nil => intro st acc; simp [runBidsAcc]
  | cons r rs ih =>
    intro st acc
    rcases on_submit_cases st r.now r.user r.raw with
      ⟨b, hsub, hgt, _, _, _⟩ | hsub | hsub | hsub <;>
      simp only [runBidsAcc, hsub]
    · exact le_trans (le_of_lt hgt) (ih _ _)
    · exact ih _ _
    · exact ih _ _
    · exact ih _ _

/-- C4: starting from a fresh auction (`highest_bid = start_price`, no
bidder), over every sequence of bid submissions `highest_bid` stays at or
above `start_price`, is monotonically non-decreasing along the sequence,
and equals the maximum of the accepted bid amounts — or `start_price` when
no bid was accepted; `highest_bidder` is set exactly when at least one bid
has been accepted, and in that case `highest_bid` strictly exceeds
`start_price`. -/
theorem C4_highest_bid_invariant (s0 : AuctionState) (reqs : List BidReq)
    (hinit_bid : s0.highest_bid = s0.start_price)
    (hinit_bidder : s0.highest_bidder = none) :
    s0.start_price ≤ (runBidsAcc s0 [] reqs).1.highest_bid
    ∧ ((runBidsAcc s0 [] reqs).2 = [] →
        (runBidsAcc s0 [] reqs).1.highest_bid = s0.start_price)
    ∧ ((runBidsAcc s0 [] reqs).2 ≠ [] →
        (runBidsAcc s0 [] reqs).1.highest_bid ∈ (runBidsAcc s0 [] reqs).2
        ∧ s0.start_price < (runBidsAcc s0 [] reqs).1.highest_bid)
    ∧ (∀ a ∈ (runBidsAcc s0 [] reqs).2,
        a ≤ (runBidsAcc s0 [] reqs).1.highest_bid)
    ∧ ((runBidsAcc s0 [] reqs).1.highest_bidder.isSome ↔
        (runBidsAcc s0 [] reqs).2 ≠ [])
    ∧ (∀ l1 l2, reqs = l1 ++ l2 →
        (runBidsAcc s0 [] l1).1.highest_bid ≤
          (runBidsAcc s0 [] reqs).1.highest_bid) := by
  have hinv0 : BidInv s0 s0 [] := by
    refine ⟨rfl, by omega, by simp [hinit_bidder], by simp, fun _ => hinit_bid,
      by simp⟩
  obtain ⟨h1, h2, h3, h4, h5, h6⟩ := BidInv_run s0 reqs s0 [] hinv0
  refine ⟨h2, h5, ?_, fun a ha => (h4 a ha).1, h3, ?_⟩
  · intro hne
    exact ⟨h6 hne, (h4 _ (h6 hne)).2⟩
  · intro l1 l2 hsplit
    subst hsplit
    rw [runBidsAcc_append]
    exact runBidsAcc_highest_mono _ _ _

/-- Witness for C4 on a concrete two-bid run: the accepted bid 1500 then a
rejected 1200 leave `highest_bid` at or above the start price 1000. -/
theorem C4_highest_bid_invariant_witness :
    (mkAuctionState 1 "아이템" 1000 10 0 3).start_price ≤
      (runBidsAcc (mkAuctionState 1 "아이템" 1000 10 0 3) []
        [⟨0, 7, "1500"⟩, ⟨1, 8, "1200"⟩]).1.highest_bid :=
  (C4_highest_bid_invariant (mkAuctionState 1 "아이템" 1000 10 0 3)
    [⟨0, 7, "1500"⟩, ⟨1, 8, "1200"⟩] (by decide) (by decide)).1

/-- Counterexample to C9 as stated: on a concrete accepted bid the display
refresh event (`state.message.edit`, line 150) occurs BEFORE the lock
release — the refresh is executed inside the `async with state.lock:`
block, not outside the lock as the claim says. -/
theorem C9_counterexample :
    on_submit_trace (mkAuctionState 1 "아이템" 1000 10 0 3) 0 "1500" =
      [Ev.acquire, Ev.expiryCheck, Ev.parseStep, Ev.validate, Ev.mutate,
       Ev.refresh, Ev.respond, Ev.release]
    ∧ (on_submit_trace (mkAuctionState 1 "아이템" 1000 10 0 3) 0
          "1500").indexOf Ev.refresh <
      (on_submit_trace (mkAuctionState 1 "아이템" 1000 10 0 3) 0
          "1500").indexOf Ev.release := by
  exact ⟨by decide, by decide⟩

/-- C9 (amended): every step of `on_submit` — the expiry check, parsing,
validation, the mutation, and also the display refresh — executes between
the single lock acquisition and the single lock release, so two bids on the
same auction are totally ordered by lock acquisition; the later bid runs
against the updated `highest_bid`, hence a second bid not exceeding an
accepted first bid is rejected with BidTooLow — it can never be admitted
against the stale pre-acceptance `highest_bid`. -/
theorem C9_lock_scope (s : AuctionState) (now : Nat) (user : UserId)
    (raw : String) :
    (∃ body, on_submit_trace s now raw = Ev.acquire :: body ++ [Ev.release]
        ∧ Ev.acquire ∉ body ∧ Ev.release ∉ body
        ∧ (Ev.mutate ∈ body →
            body = [Ev.expiryCheck, Ev.parseStep, Ev.validate, Ev.mutate,
                    Ev.refresh, Ev.respond]))
    ∧ (∀ (b : Int) (s1 : AuctionState) (c : Bool) (now2 : Nat) (u2 : UserId)
          (raw2 : String) (b2 : Int),
        on_submit s now user raw = (BidOutcome.Accepted b, s1, c) →
        parseBid raw2 = some b2 → b2 ≤ b → now2 < s1.ends_at →
        on_submit s1 now2 u2 raw2 = (BidOutcome.BidTooLow b, s1, false)) := by
  constructor
  · by_cases hend : s.ends_at ≤ now
    · refine ⟨[Ev.expiryCheck, Ev.closeOut, Ev.respond], ?_, by simp,
        by simp, by simp⟩
      unfold on_submit_trace
      rw [if_pos hend]
    · rcases hp : parseBid raw with _ | bid
      · refine ⟨[Ev.expiryCheck, Ev.parseStep, Ev.respond], ?_, by simp,
          by simp, by simp⟩
        unfold on_submit_trace
        rw [if_neg hend, hp]
      · by_cases hlow : bid ≤ s.highest_bid ∨ bid < s.start_price
        · refine ⟨[Ev.expiryCheck, Ev.parseStep, Ev.validate, Ev.respond],
            ?_, by simp, by simp, by simp⟩
          unfold on_submit_trace
          rw [if_neg hend, hp]
          exact congrArg
            (fun l => Ev.acquire :: (Ev.expiryCheck :: l) ++ [Ev.release])
            (if_pos hlow)
        · refine ⟨[Ev.expiryCheck, Ev.parseStep, Ev.validate, Ev.mutate,
            Ev.refresh, Ev.respond], ?_, by simp, by simp, fun _ => rfl⟩
          unfold on_submit_trace
          rw [if_neg hend, hp]
          exact congrArg
            (fun l => Ev.acquire :: (Ev.expiryCheck :: l) ++ [Ev.release])
            (if_neg hlow)
  · intro b s1 c now2 u2 raw2 b2 h hp2 hle h4
    rcases on_submit_cases s now user raw with
      ⟨b', hsub, hgt, hge, hp, hopen⟩ | hsub | hsub | hsub
    · have hinj := hsub.symm.trans h
      simp only [Prod.mk.injEq, BidOutcome.Accepted.injEq] at hinj
      obtain ⟨hb, hs1, hc⟩ := hinj
      subst hb
      subst hs1
      unfold on_submit
      rw [if_neg (not_le.mpr h4), hp2]
      exact if_pos (Or.inl hle)
    · rw [hsub] at h; simp at h
    · rw [hsub] at h; simp at h
    · rw [hsub] at h; simp at h

/-- Witness for C9 (amended): after the accepted bid 1500, a later bid of
1200 on the updated state is rejected with BidTooLow 1500. -/
theorem C9_lock_scope_witness :
    on_submit ((on_submit (mkAuctionState 1 "아이템" 1000 100 0 3) 0 7
        "1500").2.1) 1 8 "1200" =
      (BidOutcome.BidTooLow 1500,
       (on_submit (mkAuctionState 1 "아이템" 1000 100 0 3) 0 7 "1500").2.1,
       false) :=
  (C9_lock_scope (mkAuctionState 1 "아이템" 1000 100 0 3) 0 7 "1500").2 1500
    ((on_submit (mkAuctionState 1 "아이템" 1000 100 0 3) 0 7 "1500").2.1)
    false 1 8 "1200" 1200 (by decide) (by decide) (by decide) (by decide)

/-- A channel missing from a lookup is not among the registry's keys. -/
theorem lookup_eq_none_notMem {β : Type} (ch : ChannelId)
    (l : List (ChannelId × β)) (h : l.lookup ch = none) :
    ch ∉ l.map Prod.fst := by
  simp at h
  intro hmem
  rcases List.mem_map.mp hmem with ⟨⟨a, b⟩, hab, heq⟩
  exact h a b hab heq.symm

/-- Removing a channel's entries makes its lookup fail. -/
theorem lookup_filter_self {β : Type} (ch : ChannelId)
    (l : List (ChannelId × β)) :
    (l.filter (fun p => p.1 ≠ ch)).lookup ch = none := by
  simp
  exact fun a b hmem hne hc => hne hc.symm

/-- Removing a channel's entries preserves distinctness of the keys. -/
theorem nodup_filter_keys {β : Type} (ch : ChannelId)
    (l : List (ChannelId × β)) (h : (l.map Prod.fst).Nodup) :
    ((l.filter (fun p => p.1 ≠ ch)).map Prod.fst).Nodup :=
  h.sublist (List.Sublist.map Prod.fst (List.filter_sublist l))

/-- C6: the registry keeps at most one live auction per channel — both the
open command and the close-out preserve distinctness of the registry keys —
and an open request on a channel that already has an entry answers
AlreadyRunning with no side effect at all: no auction is created, no
countdown task is started, the whole system state is returned unchanged. -/
theorem C6_one_auction_per_channel :
    (∀ (sys : Sys) (ch : ChannelId) (item : String) (sp : Int) (d n : Nat)
        (o : UserId),
      (sys.registry.lookup ch).isSome = true →
      auction_cmd sys ch item sp d n o = (OpenResult.alreadyRunning, sys))
    ∧ (∀ (sys : Sys) (ch : ChannelId) (item : String) (sp : Int) (d n : Nat)
        (o : UserId),
      (sys.registry.map Prod.fst).Nodup →
      ((auction_cmd sys ch item sp d n o).2.registry.map Prod.fst).Nodup)
    ∧ (∀ (sys : Sys) (s : AuctionState) (reason : String) (eF sF : Bool),
      (sys.registry.map Prod.fst).Nodup →
      ((end_auction sys s reason eF sF).registry.map Prod.fst).Nodup) := by
  refine ⟨?_, ?_, ?_⟩
  · intro sys ch item sp d n o hocc
    unfold auction_cmd
    rw [if_pos hocc]
  · intro sys ch item sp d n o hnd
    unfold auction_cmd
    by_cases hocc : (sys.registry.lookup ch).isSome = true
    · rw [if_pos hocc]
      exact hnd
    · rw [if_neg hocc]
      simp only [List.map_cons]
      refine List.nodup_cons.mpr ⟨?_, hnd⟩
      have hnone : sys.registry.lookup ch = none := by
        rcases h : sys.registry.lookup ch with _ | v
        · rfl
        · exact absurd (by simp [h]) hocc
      exact lookup_eq_none_notMem ch sys.registry hnone
  · intro sys s reason eF sF hnd
    exact nodup_filter_keys s.channelId sys.registry hnd

/-- Witness for C6: opening on channel 1 while an auction is registered
there answers AlreadyRunning and leaves the system untouched. -/
theorem C6_one_auction_per_channel_witness :
    auction_cmd
        { registry := [(1, mkAuctionState 1 "아이템" 1000 10 0 3)],
          announcements := [], finalEdits := [], tasksStarted := 1 }
        1 "둘째 아이템" 500 60 5 4 =
      (OpenResult.alreadyRunning,
       { registry := [(1, mkAuctionState 1 "아이템" 1000 10 0 3)],
         announcements := [], finalEdits := [], tasksStarted := 1 }) :=
  C6_one_auction_per_channel.1
    { registry := [(1, mkAuctionState 1 "아이템" 1000 10 0 3)],
      announcements := [], finalEdits := [], tasksStarted := 1 }
    1 "둘째 아이템" 500 60 5 4 (by decide)

/-- Counterexample to C7 as stated: on a concrete close-out whose final
display update fails while the channel send could succeed, the outcome
notification is NOT published — `message.edit` and `channel.send` share one
`try` block, so the edit's exception skips the send.  The same close-out
with the edit succeeding does publish it, isolating the display-update
failure as the cause; the registry entry is removed in both runs. -/
theorem C7_counterexample :
    (end_auction
        { registry := [(2, mkAuctionState 2 "아이템" 500 60 0 3)],
          announcements := [], finalEdits := [], tasksStarted := 1 }
        (mkAuctionState 2 "아이템" 500 60 0 3) "시간 종료" true
        false).announcements = []
    ∧ (end_auction
        { registry := [(2, mkAuctionState 2 "아이템" 500 60 0 3)],
          announcements := [], finalEdits := [], tasksStarted := 1 }
        (mkAuctionState 2 "아이템" 500 60 0 3) "시간 종료" false
        false).announcements = [OutcomeText.noWinner]
    ∧ (end_auction
        { registry := [(2, mkAuctionState 2 "아이템" 500 60 0 3)],
          announcements := [], finalEdits := [], tasksStarted := 1 }
        (mkAuctionState 2 "아이템" 500 60 0 3) "시간 종료" true
        false).registry = [] := by
  exact ⟨rfl, rfl, rfl⟩

/-- C7 (amended): in the close-out the outcome notification is attempted
only after a successful final display update — a display-update failure
also skips the notification — while the registry removal is unconditional:
whatever the two best-effort calls do, the channel's entry is gone
afterwards, and when the display update succeeds the final edit is
delivered and, if the send also succeeds, so is the notification. -/
theorem C7_close_out_effects (sys : Sys) (s : AuctionState) (reason : String)
    (editFails sendFails : Bool) :
    (end_auction sys s reason editFails sendFails).registry.lookup
      s.channelId = none
    ∧ (editFails = false → sendFails = false →
        (end_auction sys s reason editFails sendFails).announcements =
          sys.announcements ++ [winnerText s])
    ∧ (editFails = true →
        (end_auction sys s reason editFails sendFails).announcements =
          sys.announcements
        ∧ (end_auction sys s reason editFails sendFails).finalEdits =
          sys.finalEdits)
    ∧ (sendFails = true →
        (end_auction sys s reason editFails sendFails).announcements =
          sys.announcements)
    ∧ (editFails = false →
        (end_auction sys s reason editFails sendFails).finalEdits =
          sys.finalEdits ++ [(winnerText s, reason)]) := by
  refine ⟨lookup_filter_self s.channelId sys.registry, ?_, ?_, ?_, ?_⟩
  · intro h1 h2
    simp [end_auction, h1, h2]
  · intro h1
    constructor <;> simp [end_auction, h1]
  · intro h1
    simp [end_auction, h1]
  · intro h1
    simp [end_auction, h1]

/-- Witness for C7 (amended): a concrete close-out with a failing display
update delivers no notification yet still empties the registry. -/
theorem C7_close_out_effects_witness :
    (end_auction
        { registry := [(2, mkAuctionState 2 "아이템" 500 60 0 3)],
          announcements := [], finalEdits := [], tasksStarted := 1 }
        (mkAuctionState 2 "아이템" 500 60 0 3) "시간 종료" true
        false).registry.lookup 2 = none :=
  (C7_close_out_effects
    { registry := [(2, mkAuctionState 2 "아이템" 500 60 0 3)],
      announcements := [], finalEdits := [], tasksStarted := 1 }
    (mkAuctionState 2 "아이템" 500 60 0 3) "시간 종료" true false).1

/-- C8: a force-close on a registered auction succeeds only for the
auction's owner or a holder of the `manage_messages` moderation capability;
any other requester gets Unauthorized and the system and the auction object
are returned exactly as they were.  An authorized force-close cancels the
countdown task, reports closed, removes the channel's registry entry, and —
when no bid was accepted and the best-effort calls succeed — announces the
no-winner outcome. -/
theorem C8_force_close_authorization (sys : Sys) (ch : ChannelId)
    (user : UserId) (isMod : Bool) (s : AuctionState) (eF sF : Bool)
    (hs : sys.registry.lookup ch = some s) :
    (¬(user = s.owner ∨ isMod = true) →
        on_interaction_end sys ch user isMod eF sF =
          (ForceCloseResult.unauthorized, sys, some s))
    ∧ ((user = s.owner ∨ isMod = true) →
        (on_interaction_end sys ch user isMod eF sF).1 =
          ForceCloseResult.closed
        ∧ (on_interaction_end sys ch user isMod eF sF).2.2 =
            some { s with taskCancelled := true }
        ∧ (on_interaction_end sys ch user isMod eF sF).2.1.registry.lookup
            s.channelId = none
        ∧ (s.highest_bidder = none → eF = false → sF = false →
            (on_interaction_end sys ch user isMod eF sF).2.1.announcements =
              sys.announcements ++ [OutcomeText.noWinner])) := by
  have hred : on_interaction_end sys ch user isMod eF sF =
      (if user = s.owner ∨ isMod = true then
        (ForceCloseResult.closed,
         end_auction sys { s with taskCancelled := true } "조기 종료" eF sF,
         some { s with taskCancelled := true })
       else (ForceCloseResult.unauthorized, sys, some s)) := by
    unfold on_interaction_end
    rw [hs]
  constructor
  · intro h
    rw [hred, if_neg h]
  · intro h
    rw [hred, if_pos h]
    refine ⟨rfl, rfl, ?_, ?_⟩
    · exact lookup_filter_self s.channelId sys.registry
    · intro hb h1 h2
      simp [end_auction, winnerText, hb, h1, h2]

/-- Witness for C8: a requester who is neither the owner nor a moderator is
turned away with Unauthorized and nothing changes. -/
theorem C8_force_close_authorization_witness :
    on_interaction_end
        { registry := [(2, mkAuctionState 2 "아이템" 500 60 0 3)],
          announcements := [], finalEdits := [], tasksStarted := 1 }
        2 9 false false false =
      (ForceCloseResult.unauthorized,
       { registry := [(2, mkAuctionState 2 "아이템" 500 60 0 3)],
         announcements := [], finalEdits := [], tasksStarted := 1 },
       some (mkAuctionState 2 "아이템" 500 60 0 3)) :=
  (C8_force_close_authorization
    { registry := [(2, mkAuctionState 2 "아이템" 500 60 0 3)],
      announcements := [], finalEdits := [], tasksStarted := 1 }
    2 9 false (mkAuctionState 2 "아이템" 500 60 0 3) false false
    (by decide)).1 (by decide)

/-- C2 fails on the code (code bug): once an auction has been closed by an
authorized force-close — its entry removed from the registry — a bid
submitted through a still-open modal, which holds a direct reference to the
auction object, at a time before `ends_at`, is ACCEPTED and mutates
`highest_bid` and `highest_bidder` instead of failing with AlreadyClosed.
The `if not state:` guard of `BidModal.on_submit` (line 120) was meant to
catch this but can never fire, because `self.state` is a captured non-None
object reference.  Run shown: channel 2, start 500, `ends_at` 1000; the
owner (user 3) force-closes; user 7 then submits "1500" at time 20 through
the stale modal and the dead auction's state is updated. -/
theorem C2_bid_accepted_after_close :
    (on_interaction_end
        { registry := [(2, mkAuctionState 2 "아이템" 500 1000 0 3)],
          announcements := [], finalEdits := [], tasksStarted := 1 }
        2 3 false false false).1 = ForceCloseResult.closed
    ∧ (on_interaction_end
        { registry := [(2, mkAuctionState 2 "아이템" 500 1000 0 3)],
          announcements := [], finalEdits := [], tasksStarted := 1 }
        2 3 false false false).2.1.registry = []
    ∧ (on_interaction_end
        { registry := [(2, mkAuctionState 2 "아이템" 500 1000 0 3)],
          announcements := [], finalEdits := [], tasksStarted := 1 }
        2 3 false false false).2.2 =
      some { mkAuctionState 2 "아이템" 500 1000 0 3 with taskCancelled := true }
    ∧ (on_submit
        { mkAuctionState 2 "아이템" 500 1000 0 3 with taskCancelled := true }
        20 7 "1500").1 = BidOutcome.Accepted 1500
    ∧ (on_submit
        { mkAuctionState 2 "아이템" 500 1000 0 3 with taskCancelled := true }
        20 7 "1500").2.1.highest_bid = 1500
    ∧ (on_submit
        { mkAuctionState 2 "아이템" 500 1000 0 3 with taskCancelled := true }
        20 7 "1500").2.1.highest_bidder = some 7 := by
  exact ⟨by decide, by decide, by decide, by decide, by decide, by decide⟩

/-- C3 fails on the code (code bug): `end_auction` contains no phase flag
and no idempotency check, so a second invocation on the same auction
repeats the observable effects.  Run shown: the countdown closes the
channel-1 auction at its deadline (one no-winner announcement, one final
display edit, registry emptied); a stale-modal bid at time 101 then
re-triggers `end_auction` through the `now >= ends_at` branch of
`on_submit` (line 128), and the system ends with TWO no-winner
announcements and TWO final display edits — only the registry removal
(`auctions.pop(..., None)`) is a harmless no-op the second time. -/
theorem C3_close_out_repeats_effects :
    (end_auction
        { registry := [(1, mkAuctionState 1 "아이템" 500 100 0 3)],
          announcements := [], finalEdits := [], tasksStarted := 1 }
        (mkAuctionState 1 "아이템" 500 100 0 3) "시간 종료" false
        false).announcements = [OutcomeText.noWinner]
    ∧ (end_auction
        { registry := [(1, mkAuctionState 1 "아이템" 500 100 0 3)],
          announcements := [], finalEdits := [], tasksStarted := 1 }
        (mkAuctionState 1 "아이템" 500 100 0 3) "시간 종료" false
        false).registry = []
    ∧ (handle_bid
        (end_auction
          { registry := [(1, mkAuctionState 1 "아이템" 500 100 0 3)],
            announcements := [], finalEdits := [], tasksStarted := 1 }
          (mkAuctionState 1 "아이템" 500 100 0 3) "시간 종료" false false)
        (mkAuctionState 1 "아이템" 500 100 0 3) 101 7 "1500" false
        false).1 = BidOutcome.AlreadyClosed
    ∧ (handle_bid
        (end_auction
          { registry := [(1, mkAuctionState 1 "아이템" 500 100 0 3)],
            announcements := [], finalEdits := [], tasksStarted := 1 }
          (mkAuctionState 1 "아이템" 500 100 0 3) "시간 종료" false false)
        (mkAuctionState 1 "아이템" 500 100 0 3) 101 7 "1500" false
        false).2.2.announcements =
      [OutcomeText.noWinner, OutcomeText.noWinner]
    ∧ (handle_bid
        (end_auction
          { registry := [(1, mkAuctionState 1 "아이템" 500 100 0 3)],
            announcements := [], finalEdits := [], tasksStarted := 1 }
          (mkAuctionState 1 "아이템" 500 100 0 3) "시간 종료" false false)
        (mkAuctionState 1 "아이템" 500 100 0 3) 101 7 "1500" false
        false).2.2.finalEdits.map Prod.fst =
      [OutcomeText.noWinner, OutcomeText.noWinner]
    ∧ (handle_bid
        (end_auction
          { registry := [(1, mkAuctionState 1 "아이템" 500 100 0 3)],
            announcements := [], finalEdits := [], tasksStarted := 1 }
          (mkAuctionState 1 "아이템" 500 100 0 3) "시간 종료" false false)
        (mkAuctionState 1 "아이템" 500 100 0 3) 101 7 "1500" false
        false).2.2.registry = [] := by
  exact ⟨by decide, by decide, by decide, by decide, by decide, by decide⟩
